import Mathlib

/-!
Shallow embedding of the freedns forwarder core (freedns/freedns.go):
the pollution classifier (`maybePolluted`, `containA`, `containChinaIP`),
the race resolver (`LookupNet`), the cache path (`genCacheKey`, `subTTL`,
`LookupCache`, `setCache`), and the request dispatcher (`handle`).

DNS messages are modelled with the fields the core reads: transaction id,
response code, recursion-desired bit, the question section, and the three
resource-record sections with per-record TTLs.  The ChinaIP table is an
external oracle, modelled as a function from the A-record address string
to Bool.  Concurrency in `LookupNet` is modelled by an environment record
carrying the outcome of each upstream exchange and whether it beat the
2-second deadline sentinel; the selection logic itself is sequential in
the source (fast channel is always read first).
-/

namespace FreeDNS

/-- One entry of the question section: `dns.Question` restricted to the
fields the core reads (`Name`, `Qtype`). -/
structure Question where
  name : String
  qtype : Nat
deriving DecidableEq, Repr

/-- Record data: either an A record carrying an IPv4 address string, or
any other record type (tagged with its numeric type). -/
inductive RData where
  | A : String → RData
  | other : Nat → RData
deriving DecidableEq, Repr

/-- A resource record: its header TTL (a uint32 in Go, kept as a Nat with
the 2^32 bound imposed where it matters) and its data. -/
structure RR where
  ttl : Nat
  rdata : RData
deriving DecidableEq, Repr

/-- A DNS message restricted to the fields the core reads and writes. -/
structure Msg where
  id : Nat
  rcode : Nat
  recursionDesired : Bool
  question : List Question
  answer : List RR
  ns : List RR
  extra : List RR
deriving DecidableEq, Repr

/-- Value of `dns.RcodeSuccess` (NOERROR). -/
def rcodeSuccess : Nat := 0

/-- Value of `dns.RcodeServerFailure` (SERVFAIL). -/
def rcodeServerFailure : Nat := 2

/-- Value of `dns.RcodeBadName` (BADNAME). -/
def rcodeBadName : Nat := 20

/-- Fragment of the external `dns.TypeToString` table; `genCacheKey`
only needs that it is a function of the numeric type. -/
def typeToString (t : Nat) : String :=
  if t = 1 then "A"
  else if t = 2 then "NS"
  else if t = 5 then "CNAME"
  else if t = 28 then "AAAA"
  else "TYPE" ++ toString t

/-- The concatenation answer ++ authority ++ additional built by
`containA` and `containChinaIP` (`rrs` in the source). -/
def allRRs (m : Msg) : List RR := m.answer ++ m.ns ++ m.extra

/-- Whether a record is an A record (the `rrs[i].(*dns.A)` downcast). -/
def RData.isA : RData → Bool
  | .A _ => true
  | .other _ => false

/-- Source `containA`: some record across the three sections is an A record. -/
def containA (m : Msg) : Bool := (allRRs m).any fun rr => rr.rdata.isA

/-- One step of the `containChinaIP` loop: an A record whose address the
ChinaIP oracle accepts. -/
def isChinaRR (oracle : String → Bool) (rr : RR) : Bool :=
  match rr.rdata with
  | .A ip => oracle ip
  | .other _ => false

/-- Source `containChinaIP`: some A record across the three sections carries an
address in the ChinaIP set (`chinaip.IsChinaIP` is the oracle). -/
def containChinaIP (oracle : String → Bool) (m : Msg) : Bool :=
  (allRRs m).any (isChinaRR oracle)

/-- Source expression `res.Question[0].Name` (total via a default; the core only evaluates
it on messages with a non-empty question section). -/
def qname (m : Msg) : String := (m.question.headD ⟨"", 0⟩).name

/-- The domain-hint store `s.chinaDom`, typed view: query name to the
learned "resolves to a China IP" boolean. -/
abbrev HintStore := List (String × Bool)

/-- Source call `s.chinaDom.Get(name)`. -/
def hintGet (st : HintStore) (k : String) : Option Bool :=
  (st.find? fun p => p.1 == k).map Prod.snd

/-- Source call `s.chinaDom.Set(name, china)`: insert/overwrite at the front. -/
def hintSet (st : HintStore) (k : String) (v : Bool) : HintStore :=
  (k, v) :: st.filter fun p => p.1 != k

/-- Source `maybePolluted`: returns the classification together with the
(hint-store) state after the call.  Mirrors the source rule order:
empty sections → polluted; A record present → record the hint and return
"polluted iff no China IP"; otherwise consult the hint; otherwise trust. -/
def maybePolluted (oracle : String → Bool) (st : HintStore) (res : Msg) :
    Bool × HintStore :=
  if res.answer.length + res.ns.length + res.extra.length = 0 then (true, st)
  else if containA res then
    let china := containChinaIP oracle res
    (!china, hintSet st (qname res) china)
  else
    match hintGet st (qname res) with
    | some china => (!china, st)
    | none => (false, st)

/-- Source `genCacheKey`: qname ++ "_" ++ type ++ "_" ++ RD-bit ++ "_" ++ net.
The question name is used verbatim (no case normalization). -/
def genCacheKey (r : Msg) (net : String) : String :=
  let q := r.question.headD ⟨"", 0⟩
  let s := q.name ++ "_" ++ typeToString q.qtype
  let s := if r.recursionDesired then s ++ "_1" else s ++ "_0"
  s ++ "_" ++ net

/-- Source `cacheEntry`: insertion instant (whole seconds) and the stored reply. -/
structure cacheEntry where
  putin : Int
  reply : Msg
deriving DecidableEq, Repr

/-- The answer cache `s.cache` as an association list keyed by the
fingerprint string. -/
abbrev Cache := List (String × cacheEntry)

/-- Source call `s.cache.Get(key)`. -/
def cacheGet (c : Cache) (k : String) : Option cacheEntry :=
  (c.find? fun p => p.1 == k).map Prod.snd

/-- The body of `subTTL`'s `S` loop for one record: subtract `delta` from
the TTL (Go `int` arithmetic), clamp a result ≤ 0 to 3 setting the update
flag, and store back through the `uint32(...)` conversion (mod 2^32). -/
def subTTLrr (delta : Int) (rr : RR) : RR × Bool :=
  let newTTL : Int := (rr.ttl : Int) - delta
  if newTTL ≤ 0 then ({ rr with ttl := 3 }, true)
  else ({ rr with ttl := newTTL.toNat % 2 ^ 32 }, false)

/-- The `S` loop of `subTTL` applied to one section, accumulating `needUpdate`. -/
def subTTLsec (delta : Int) : List RR → List RR × Bool
  | [] => ([], false)
  | rr :: rest =>
    let h := subTTLrr delta rr
    let t := subTTLsec delta rest
    (h.1 :: t.1, h.2 || t.2)

/-- Source `subTTL`: rewrite the answer, authority and additional sections and
report whether any record was clamped (`needUpdate`). -/
def subTTL (res : Msg) (delta : Int) : Msg × Bool :=
  let a := subTTLsec delta res.answer
  let n := subTTLsec delta res.ns
  let e := subTTLsec delta res.extra
  ({ res with answer := a.1, ns := n.1, extra := e.1 }, a.2 || n.2 || e.2)

/-- Result of `LookupCache` on a hit: the TTL-rewritten copy that is
returned, and the arguments of the detached `LookupNet` refresh
goroutine when one is spawned. -/
structure CacheOut where
  reply : Msg
  refresh : Option (Msg × String)
deriving DecidableEq, Repr

/-- Source `LookupCache`: probe the cache under the fingerprint; on a hit, copy
the stored reply, subtract the elapsed whole seconds from every TTL, and
spawn the background re-resolution exactly when `subTTL` clamped. -/
def lookupCache (c : Cache) (req : Msg) (net : String) (now : Int) :
    Option CacheOut :=
  match cacheGet c (genCacheKey req net) with
  | none => none
  | some entry =>
    let delta := now - entry.putin
    let r := subTTL entry.reply delta
    some { reply := r.1, refresh := if r.2 then some (req, net) else none }

/-- The upstream addresses of the server configuration (`Config`),
restricted to the fields `LookupNet` reads. -/
structure Config where
  fastDNS : String
  cleanDNS : String
deriving DecidableEq, Repr

/-- Outcome of one upstream exchange (`resolve`), plus whether its channel
send beat the 2-second deadline goroutine: `res` is the message (`none` =
Go `nil`), `err` whether a transport error occurred, `inTime` whether the
main goroutine receives this value rather than the deadline's `nil`. -/
structure NetEnv where
  fastRes : Option Msg
  fastErr : Bool
  fastInTime : Bool
  cleanRes : Option Msg
  cleanErr : Bool
  cleanInTime : Bool
deriving DecidableEq, Repr

/-- The `Q` goroutine with `useClean = false`: forward `nil` unchanged;
otherwise apply the fast-path filter with the source's short-circuit order
(`res.Rcode != dns.RcodeSuccess || err != nil || s.maybePolluted(res)`),
so the classifier (and its hint-store write) runs only when the first two
tests pass.  Returns the channel value and the hint store after the call. -/
def fastQ (oracle : String → Bool) (st : HintStore) (res : Option Msg)
    (err : Bool) : Option Msg × HintStore :=
  match res with
  | none => (none, st)
  | some r =>
    if r.rcode ≠ rcodeSuccess then (none, st)
    else if err then (none, st)
    else
      let p := maybePolluted oracle st r
      if p.1 then (none, p.2) else (some r, p.2)

/-- The `Q` goroutine with `useClean = true`: forward `nil` unchanged and
any non-nil reply unfiltered (no rcode, error or pollution check). -/
def cleanQ (res : Option Msg) : Option Msg := res

/-- The value the main goroutine receives from `fastCh`: the fast `Q`
result when it beats the 2-second deadline, else the deadline's `nil`. -/
def fastChanValue (oracle : String → Bool) (st : HintStore) (env : NetEnv) :
    Option Msg :=
  if env.fastInTime then (fastQ oracle st env.fastRes env.fastErr).1 else none

/-- The value the main goroutine receives from `cleanCh`. -/
def cleanChanValue (env : NetEnv) : Option Msg :=
  if env.cleanInTime then cleanQ env.cleanRes else none

/-- The zero message, Go expression `&dns.Msg` applied to no fields. -/
def emptyMsg : Msg :=
  { id := 0, rcode := 0, recursionDesired := false,
    question := [], answer := [], ns := [], extra := [] }

/-- Source call `m.SetRcode(req, rc)` of the external codec: `SetReply` stamps the
request's transaction id, recursion-desired bit and first question onto
`m`, then the response code is set to `rc`. -/
def setRcode (m req : Msg) (rc : Nat) : Msg :=
  { m with id := req.id, recursionDesired := req.recursionDesired,
           question := req.question.take 1, rcode := rc }

/-- Result of `LookupNet`: the reply, the upstream label, the cache
insertion performed by `setCache` (fingerprint and reply; `none` when
nothing was inserted), and the hint store after the call. -/
structure NetOut where
  reply : Msg
  upstream : String
  cached : Option (String × Msg)
  hints : HintStore
deriving DecidableEq, Repr

/-- Source `LookupNet`: read the fast channel first; a non-nil fast reply is
cached and returned with the fast upstream's address.  Otherwise read the
clean channel; a non-nil clean reply is returned with the clean address
and cached exactly when its rcode is NOERROR; `nil` from both yields a
synthesized SERVFAIL, cached never. -/
def lookupNet (oracle : String → Bool) (cfg : Config) (st : HintStore)
    (req : Msg) (env : NetEnv) (net : String) : NetOut :=
  let st1 := (fastQ oracle st env.fastRes env.fastErr).2
  match fastChanValue oracle st env with
  | some r =>
    { reply := r, upstream := cfg.fastDNS,
      cached := some (genCacheKey r net, r), hints := st1 }
  | none =>
    match cleanChanValue env with
    | some r =>
      { reply := r, upstream := cfg.cleanDNS,
        cached := if r.rcode = rcodeSuccess
                  then some (genCacheKey r net, r) else none,
        hints := st1 }
    | none =>
      { reply := setRcode emptyMsg req rcodeServerFailure,
        upstream := cfg.cleanDNS, cached := none, hints := st1 }

/-- Source `LookupHosts`: the stub always misses. -/
def lookupHosts (_req : Msg) : Option Msg := none

/-- What `handle` did: the messages written to the response writer and
which lookup stages ran. -/
structure HandleOut where
  written : List Msg
  upstream : String
  probedHosts : Bool
  probedCache : Bool
  probedNet : Bool
deriving DecidableEq, Repr

/-- Source `handle`: an empty question section is answered immediately with a
BADNAME reply; otherwise hosts, cache and network are probed in order,
the winning reply is re-stamped with `res.SetRcode(req, res.Rcode)` and
written once. -/
def handle (oracle : String → Bool) (cfg : Config) (st : HintStore)
    (c : Cache) (req : Msg) (net : String) (now : Int) (env : NetEnv) :
    HandleOut :=
  if req.question.length < 1 then
    { written := [setRcode emptyMsg req rcodeBadName], upstream := "",
      probedHosts := false, probedCache := false, probedNet := false }
  else
    match lookupHosts req with
    | some res =>
      { written := [setRcode res req res.rcode], upstream := "hosts",
        probedHosts := true, probedCache := false, probedNet := false }
    | none =>
      match lookupCache c req net now with
      | some out =>
        { written := [setRcode out.reply req out.reply.rcode],
          upstream := "cache",
          probedHosts := true, probedCache := true, probedNet := false }
      | none =>
        let out := lookupNet oracle cfg st req env net
        { written := [setRcode out.reply req out.reply.rcode],
          upstream := out.upstream,
          probedHosts := true, probedCache := true, probedNet := true }

/-- A value stored in the untyped `goc.Cache` (Go `interface\x7b\x7d`):
the hint store holds booleans, the answer cache holds `cacheEntry`s. -/
inductive GoVal where
  | vbool : Bool → GoVal
  | ventry : cacheEntry → GoVal
deriving DecidableEq, Repr

/-- The hint store as the source has it: an untyped LRU mapping. -/
abbrev DynStore := List (String × GoVal)

/-- Untyped `Get`. -/
def dynGet (st : DynStore) (k : String) : Option GoVal :=
  (st.find? fun p => p.1 == k).map Prod.snd

/-- Untyped `Set` with LRU bounding: insert/overwrite at the front and
keep at most `cap` entries (eviction drops the tail). -/
def dynSet (cap : Nat) (st : DynStore) (k : String) (v : GoVal) : DynStore :=
  ((k, v) :: st.filter fun p => p.1 != k).take cap

/-- The `china.(bool)` type assertion: `none` models the runtime panic on
a non-boolean value. -/
def assertBool : GoVal → Option Bool
  | .vbool b => some b
  | _ => none

/-- Source `maybePolluted` over the untyped store, making the `china.(bool)`
type assertion explicit: `none` models a panic. -/
def maybePollutedDyn (oracle : String → Bool) (cap : Nat) (st : DynStore)
    (res : Msg) : Option (Bool × DynStore) :=
  if res.answer.length + res.ns.length + res.extra.length = 0 then
    some (true, st)
  else if containA res then
    let china := containChinaIP oracle res
    some (!china, dynSet cap st (qname res) (GoVal.vbool china))
  else
    match dynGet st (qname res) with
    | some v =>
      match assertBool v with
      | some china => some (!china, st)
      | none => none
    | none => some (false, st)

/-- Run `maybePolluted` over a sequence of replies, threading the untyped
hint store; `none` as soon as any call panics. -/
def runClassifier (oracle : String → Bool) (cap : Nat) :
    List Msg → DynStore → Option DynStore
  | [], st => some st
  | m :: ms, st =>
    match maybePollutedDyn oracle cap st m with
    | none => none
    | some p => runClassifier oracle cap ms p.2

/-- Every value in the untyped hint store is a boolean. -/
def BoolStore (st : DynStore) : Prop :=
  ∀ p ∈ st, ∃ b, p.2 = GoVal.vbool b

/-- Spec-side description of one served record: the elapsed seconds are
subtracted from the TTL, and a result ≤ 0 is clamped to 3 (the mod 2^32
is the uint32 store-back, invisible for in-range values). -/
def servedRR (delta : Int) (rr : RR) : RR :=
  { rr with ttl := if (rr.ttl : Int) - delta ≤ 0 then 3
                   else ((rr.ttl : Int) - delta).toNat % 2 ^ 32 }

/-- All record TTLs of a message fit in a uint32 (true of any message the
wire codec produces). -/
def Msg.wfTTL (m : Msg) : Prop := ∀ rr ∈ allRRs m, rr.ttl < 2 ^ 32

/-- Served-TTL comparison used by the monotonicity property: the later
TTL is no larger, or it is the clamp value 3. -/
def ttlMono (a b : RR) : Prop := b.ttl ≤ a.ttl ∨ b.ttl = 3

/-- Case-insensitive equality of ASCII name character lists, used to
state that two query names differ only in letter case. -/
def sameUpToCase : List Char → List Char → Bool
  | [], [] => true
  | a :: as, b :: bs =>
    (a.toNat == b.toNat || a.toNat + 32 == b.toNat || b.toNat + 32 == a.toNat)
      && sameUpToCase as bs
  | _, _ => false

/-! Helper lemmas. -/

lemma subTTLrr_eq_servedRR (delta : Int) (rr : RR) :
    (subTTLrr delta rr).1 = servedRR delta rr := by
  by_cases h : (rr.ttl : Int) ≤ delta <;>
    simp [subTTLrr, servedRR, h, sub_nonpos]

lemma subTTLrr_snd (delta : Int) (rr : RR) :
    (subTTLrr delta rr).2 = decide ((rr.ttl : Int) - delta ≤ 0) := by
  by_cases h : (rr.ttl : Int) ≤ delta <;>
    simp [subTTLrr, h, sub_nonpos]

lemma subTTLsec_eq (delta : Int) (l : List RR) :
    subTTLsec delta l =
      (l.map fun rr => (subTTLrr delta rr).1,
       l.any fun rr => (subTTLrr delta rr).2) := by
  induction l with
  | nil => rfl
  | cons rr rest ih => simp [subTTLsec, ih]

lemma subTTL_answer (m : Msg) (d : Int) :
    (subTTL m d).1.answer = m.answer.map fun rr => (subTTLrr d rr).1 := by
  simp [subTTL, subTTLsec_eq]

lemma subTTL_ns (m : Msg) (d : Int) :
    (subTTL m d).1.ns = m.ns.map fun rr => (subTTLrr d rr).1 := by
  simp [subTTL, subTTLsec_eq]

lemma subTTL_extra (m : Msg) (d : Int) :
    (subTTL m d).1.extra = m.extra.map fun rr => (subTTLrr d rr).1 := by
  simp [subTTL, subTTLsec_eq]

lemma subTTL_snd (m : Msg) (d : Int) :
    (subTTL m d).2 = (allRRs m).any fun rr => (subTTLrr d rr).2 := by
  simp [subTTL, subTTLsec_eq, allRRs, List.any_append, Bool.or_assoc]

lemma allRRs_subTTL (m : Msg) (d : Int) :
    allRRs (subTTL m d).1 = (allRRs m).map fun rr => (subTTLrr d rr).1 := by
  simp [allRRs, subTTL, subTTLsec_eq]

lemma subTTLrr_ttl_pos (delta : Int) (rr : RR) (hwf : rr.ttl < 2 ^ 32)
    (hd : 0 ≤ delta) : 1 ≤ (subTTLrr delta rr).1.ttl := by
  rw [subTTLrr_eq_servedRR]
  unfold servedRR
  simp only
  split
  · omega
  · rename_i hgt
    rw [Nat.mod_eq_of_lt (by omega)]
    omega

lemma subTTLrr_mono (rr : RR) (d₁ d₂ : Int) (hwf : rr.ttl < 2 ^ 32)
    (h0 : 0 ≤ d₁) (h12 : d₁ ≤ d₂) :
    ttlMono (subTTLrr d₁ rr).1 (subTTLrr d₂ rr).1 := by
  rw [subTTLrr_eq_servedRR, subTTLrr_eq_servedRR]
  unfold ttlMono servedRR
  simp only
  by_cases h2 : (rr.ttl : Int) - d₂ ≤ 0
  · right; rw [if_pos h2]
  · left
    have h1 : ¬((rr.ttl : Int) - d₁ ≤ 0) := by omega
    rw [if_neg h1, if_neg h2,
      Nat.mod_eq_of_lt (by omega), Nat.mod_eq_of_lt (by omega)]
    omega

lemma forall2_map_map {α β : Type} (l : List α) (f g : α → β)
    (R : β → β → Prop) (h : ∀ x ∈ l, R (f x) (g x)) :
    List.Forall₂ R (l.map f) (l.map g) := by
  induction l with
  | nil => simp
  | cons x xs ih =>
    simp only [List.map_cons]
    exact List.Forall₂.cons (h x (by simp)) (ih fun y hy => h y (by simp [hy]))

lemma fastQ_fst_some_iff (oracle : String → Bool) (st : HintStore)
    (res : Option Msg) (err : Bool) (r : Msg) :
    (fastQ oracle st res err).1 = some r ↔
      res = some r ∧ err = false ∧ r.rcode = rcodeSuccess ∧
        (maybePolluted oracle st r).1 = false := by
  constructor
  · intro h
    cases res with
    | none => simp [fastQ] at h
    | some m =>
      by_cases h1 : m.rcode = rcodeSuccess
      · cases err with
        | true => simp [fastQ, h1] at h
        | false =>
          by_cases h3 : (maybePolluted oracle st m).1 = true
          · simp [fastQ, h1, h3] at h
          · simp only [Bool.not_eq_true] at h3
            simp [fastQ, h1, h3] at h
            subst h
            exact ⟨rfl, rfl, h1, h3⟩
      · simp [fastQ, h1] at h
  · rintro ⟨rfl, rfl, hrc, hmp⟩
    simp [fastQ, hrc, hmp]

lemma fastChanValue_some_iff (oracle : String → Bool) (st : HintStore)
    (env : NetEnv) (r : Msg) :
    fastChanValue oracle st env = some r ↔
      env.fastInTime = true ∧ env.fastRes = some r ∧ env.fastErr = false ∧
        r.rcode = rcodeSuccess ∧ (maybePolluted oracle st r).1 = false := by
  unfold fastChanValue
  by_cases ht : env.fastInTime = true
  · rw [if_pos ht, fastQ_fst_some_iff]
    simp [ht]
  · rw [if_neg ht]
    simp only [Bool.not_eq_true] at ht
    simp [ht]

lemma boolStore_dynSet (cap : Nat) (st : DynStore) (k : String) (b : Bool)
    (h : BoolStore st) : BoolStore (dynSet cap st k (GoVal.vbool b)) := by
  intro p hp
  unfold dynSet at hp
  have hp' := List.take_subset _ _ hp
  rcases List.mem_cons.1 hp' with rfl | hmem
  · exact ⟨b, rfl⟩
  · exact h p (List.mem_of_mem_filter hmem)

lemma boolStore_get (st : DynStore) (k : String) (v : GoVal)
    (h : BoolStore st) (hg : dynGet st k = some v) :
    ∃ b, v = GoVal.vbool b := by
  unfold dynGet at hg
  cases hf : st.find? (fun p => p.1 == k) with
  | none => rw [hf] at hg; simp at hg
  | some p =>
    rw [hf] at hg
    simp at hg
    subst hg
    exact h p (List.mem_of_find?_eq_some hf)

lemma maybePollutedDyn_no_panic (oracle : String → Bool) (cap : Nat)
    (st : DynStore) (res : Msg) (h : BoolStore st) :
    ∃ b st', maybePollutedDyn oracle cap st res = some (b, st') ∧
      BoolStore st' := by
  by_cases h0 : res.answer.length + res.ns.length + res.extra.length = 0
  · exact ⟨true, st, by simp [maybePollutedDyn, h0], h⟩
  · cases hA : containA res with
    | true =>
      exact ⟨!(containChinaIP oracle res),
        dynSet cap st (qname res) (GoVal.vbool (containChinaIP oracle res)),
        by simp [maybePollutedDyn, h0, hA],
        boolStore_dynSet _ _ _ _ h⟩
    | false =>
      cases hg : dynGet st (qname res) with
      | none => exact ⟨false, st, by simp [maybePollutedDyn, h0, hA, hg], h⟩
      | some v =>
        obtain ⟨b, rfl⟩ := boolStore_get st _ v h hg
        exact ⟨!b, st, by simp [maybePollutedDyn, h0, hA, hg, assertBool], h⟩

/-- On a known key, `lookupCache` is the stored reply with `subTTL`
applied at the elapsed whole seconds, refresh spawned iff it clamped. -/
lemma lookupCache_eq_some (c : Cache) (req : Msg) (net : String) (now : Int)
    (entry : cacheEntry)
    (hget : cacheGet c (genCacheKey req net) = some entry) :
    lookupCache c req net now =
      some { reply := (subTTL entry.reply (now - entry.putin)).1,
             refresh := if (subTTL entry.reply (now - entry.putin)).2
                        then some (req, net) else none } := by
  unfold lookupCache
  rw [hget]

/-! Concrete inputs used by the witnesses and counterexamples. -/

/-- Oracle that recognizes a single address as a China IP. -/
def oracleW : String → Bool := fun ip => ip == "220.181.38.148"

/-- Oracle recognizing nothing. -/
def oracleF : String → Bool := fun _ => false

/-- A sample configuration. -/
def cfgW : Config := { fastDNS := "114.114.114.114:53", cleanDNS := "8.8.8.8:53" }

/-- A fast-upstream NOERROR reply carrying a China A record. -/
def fastMsgW : Msg :=
  { id := 7, rcode := 0, recursionDesired := true,
    question := [⟨"baidu.com.", 1⟩],
    answer := [⟨600, .A "220.181.38.148"⟩], ns := [], extra := [] }

/-- The request matching `fastMsgW`. -/
def reqW : Msg := { fastMsgW with id := 3, answer := [] }

/-- Environment where the fast reply arrives in time and clean misses. -/
def envW : NetEnv :=
  { fastRes := some fastMsgW, fastErr := false, fastInTime := true,
    cleanRes := none, cleanErr := false, cleanInTime := true }

/-- Environment where both upstreams fail (fast transport error, clean
past the deadline). -/
def envN : NetEnv :=
  { fastRes := none, fastErr := true, fastInTime := true,
    cleanRes := none, cleanErr := true, cleanInTime := false }

/-- Hint store holding a known-China hint. -/
def stC1 : HintStore := [("baidu.com.", true)]

/-- A NOERROR AAAA-only reply for the hinted name. -/
def resC1 : Msg :=
  { id := 5, rcode := 0, recursionDesired := true,
    question := [⟨"baidu.com.", 28⟩],
    answer := [⟨600, .other 28⟩], ns := [], extra := [] }

/-- Hint store holding a known-not-China hint. -/
def stC1f : HintStore := [("google.com.", false)]

/-- A NOERROR AAAA-only reply for the not-China name. -/
def resC1f : Msg := { resC1 with question := [⟨"google.com.", 28⟩] }

/-- Request for the TTL counterexample. -/
def reqC3 : Msg :=
  { id := 1, rcode := 0, recursionDesired := true,
    question := [⟨"short.ttl.test.", 1⟩],
    answer := [], ns := [], extra := [] }

/-- Stored entry with a TTL-5 answer record inserted at second 0. -/
def entC3 : cacheEntry :=
  { putin := 0,
    reply := { reqC3 with id := 77, answer := [⟨5, .A "1.2.3.4"⟩] } }

/-- Cache holding `entC3` under the fingerprint of `reqC3`. -/
def cC3 : Cache := [(genCacheKey reqC3 "udp", entC3)]

/-- Request for the stale-while-revalidate witness. -/
def reqC5 : Msg :=
  { id := 2, rcode := 0, recursionDesired := true,
    question := [⟨"example.com.", 1⟩], answer := [], ns := [], extra := [] }

/-- Stored entry with a TTL-60 answer record inserted at second 0. -/
def entC5 : cacheEntry :=
  { putin := 0,
    reply := { reqC5 with id := 50, answer := [⟨60, .A "93.184.216.34"⟩] } }

/-- Cache holding `entC5` under the fingerprint of `reqC5`. -/
def cC5 : Cache := [(genCacheKey reqC5 "udp", entC5)]

/-- Upper-case query. -/
def mUp : Msg :=
  { id := 1, rcode := 0, recursionDesired := true,
    question := [⟨"EXAMPLE.com.", 1⟩], answer := [], ns := [], extra := [] }

/-- Same query lower-cased, different transaction id. -/
def mLo : Msg := { mUp with id := 2, question := [⟨"example.com.", 1⟩] }

/-- Same query as `mUp` with only the transaction id changed. -/
def mUpId : Msg := { mUp with id := 42 }

/-- A reply with records of several TTLs for the monotonicity witness. -/
def mW7 : Msg :=
  { id := 4, rcode := 0, recursionDesired := true,
    question := [⟨"mono.test.", 1⟩],
    answer := [⟨5, .A "1.1.1.1"⟩, ⟨100, .A "2.2.2.2"⟩],
    ns := [⟨7, .other 2⟩], extra := [] }

/-- An incoming message with zero questions. -/
def reqE : Msg :=
  { id := 9, rcode := 0, recursionDesired := false,
    question := [], answer := [], ns := [], extra := [] }

/-! Claims. -/

/-- C1, counterexample: a reply with non-empty sections and no A record,
for a query name whose stored hint is `true` (known-China), is classified
trustworthy (`false`), not polluted as the claim states. -/
theorem maybePolluted_hint_true_trusted_cex :
    resC1.answer.length + resC1.ns.length + resC1.extra.length ≠ 0 ∧
    containA resC1 = false ∧
    hintGet stC1 (qname resC1) = some true ∧
    (maybePolluted oracleF stC1 resC1).1 = false := by decide

/-- C1, amended: for a reply with non-empty sections and no A record,
with a stored hint `b` for the query name, `maybePolluted` returns
polluted exactly when the hint is `false` — when the domain is known
not to resolve to China IPs. -/
theorem maybePolluted_no_A_hint (oracle : String → Bool) (st : HintStore)
    (res : Msg) (b : Bool)
    (hne : res.answer.length + res.ns.length + res.extra.length ≠ 0)
    (hA : containA res = false)
    (hh : hintGet st (qname res) = some b) :
    (maybePolluted oracle st res).1 = !b := by
  simp [maybePolluted, hne, hA, hh]

/-- C1, witness: the amended theorem at a concrete store and reply — a
hint of `false` yields polluted = `true`. -/
theorem maybePolluted_no_A_hint_witness :
    (maybePolluted oracleF stC1f resC1f).1 = !false :=
  maybePolluted_no_A_hint oracleF stC1f resC1f false (by decide) (by decide)
    (by decide)

/-- C4, counterexample: two requests identical up to transaction id and
query-name letter case (same qtype, recursion bit and sections) receive
different fingerprints — `genCacheKey` uses the name verbatim. -/
theorem genCacheKey_case_cex :
    mUp.id ≠ mLo.id ∧
    sameUpToCase (qname mUp).data (qname mLo).data = true ∧
    qname mUp ≠ qname mLo ∧
    mUp.recursionDesired = mLo.recursionDesired ∧
    mUp.question.map Question.qtype = mLo.question.map Question.qtype ∧
    mUp.rcode = mLo.rcode ∧ mUp.answer = mLo.answer ∧
    mUp.ns = mLo.ns ∧ mUp.extra = mLo.extra ∧
    genCacheKey mUp "udp" ≠ genCacheKey mLo "udp" := by decide

/-- C4, amended: the fingerprint ignores the transaction id — two
messages with equal question sections and recursion-desired bits map to
the same key for every transport — but the query name is case-sensitive,
so case-differing names may map to different keys. -/
theorem genCacheKey_ignores_id (m₁ m₂ : Msg) (net : String)
    (hq : m₁.question = m₂.question)
    (hrd : m₁.recursionDesired = m₂.recursionDesired) :
    genCacheKey m₁ net = genCacheKey m₂ net := by
  simp [genCacheKey, hq, hrd]

/-- C4, witness: same message with only the transaction id changed keeps
its fingerprint. -/
theorem genCacheKey_ignores_id_witness :
    genCacheKey mUp "udp" = genCacheKey mUpId "udp" :=
  genCacheKey_ignores_id mUp mUpId "udp" rfl rfl

/-- C3, counterexample: a cache hit 3 seconds after storing a TTL-5
record serves that record with TTL 2, below the claimed minimum of 3
(the clamp fires only at ≤ 0). -/
theorem lookupCache_ttl_below_three_cex :
    (lookupCache cC3 reqC3 "udp" 3).map
      (fun out => out.reply.answer.map RR.ttl) = some [2] ∧
    ¬(3 ≤ (2 : Nat)) := by decide

/-- C3, amended: every record served from the cache has TTL ≥ 1 — TTL
is positive but can be 1 or 2, not necessarily ≥ 3 — for non-negative
elapsed time and uint32-sized stored TTLs. -/
theorem lookupCache_ttl_positive (c : Cache) (req : Msg) (net : String)
    (now : Int) (entry : cacheEntry) (out : CacheOut)
    (hget : cacheGet c (genCacheKey req net) = some entry)
    (hwf : Msg.wfTTL entry.reply)
    (hnow : entry.putin ≤ now)
    (hout : lookupCache c req net now = some out) :
    ∀ rr ∈ allRRs out.reply, 1 ≤ rr.ttl := by
  rw [lookupCache_eq_some c req net now entry hget] at hout
  simp only [Option.some.injEq] at hout
  subst hout
  intro rr hrr
  dsimp only at hrr
  rw [allRRs_subTTL] at hrr
  obtain ⟨rr₀, hrr₀, rfl⟩ := List.mem_map.1 hrr
  exact subTTLrr_ttl_pos _ _ (hwf rr₀ hrr₀) (by omega)

/-- C3, witness: the amended theorem on the TTL-5 entry read 2 seconds
after insertion, specialized to its single served record. -/
theorem lookupCache_ttl_positive_witness :
    1 ≤ (RR.mk 3 (RData.A "1.2.3.4")).ttl :=
  lookupCache_ttl_positive cC3 reqC3 "udp" 2 entC3
    { reply := { entC3.reply with answer := [⟨3, .A "1.2.3.4"⟩] },
      refresh := none }
    (by decide) (by unfold Msg.wfTTL; decide) (by decide) (by decide)
    (RR.mk 3 (RData.A "1.2.3.4")) (by decide)

/-- C5: on a hit, the served reply is the stored reply with
`now - inserted_at` seconds subtracted from every record TTL in answer,
authority and additional sections, results ≤ 0 clamped to 3, and the
detached re-resolution of the same request and transport is spawned
exactly when some record was clamped. -/
theorem lookupCache_hit_spec (c : Cache) (req : Msg) (net : String)
    (now : Int) (entry : cacheEntry)
    (hget : cacheGet c (genCacheKey req net) = some entry) :
    lookupCache c req net now =
      some { reply := { entry.reply with
               answer := entry.reply.answer.map (servedRR (now - entry.putin)),
               ns := entry.reply.ns.map (servedRR (now - entry.putin)),
               extra := entry.reply.extra.map (servedRR (now - entry.putin)) },
             refresh := if ∃ rr ∈ allRRs entry.reply,
                          (rr.ttl : Int) - (now - entry.putin) ≤ 0
                        then some (req, net) else none } := by
  rw [lookupCache_eq_some c req net now entry hget]
  have h1 : (subTTL entry.reply (now - entry.putin)).1 =
      { entry.reply with
        answer := entry.reply.answer.map (servedRR (now - entry.putin)),
        ns := entry.reply.ns.map (servedRR (now - entry.putin)),
        extra := entry.reply.extra.map (servedRR (now - entry.putin)) } := by
    simp [subTTL, subTTLsec_eq, subTTLrr_eq_servedRR]
  have h2 : ((subTTL entry.reply (now - entry.putin)).2 = true) ↔
      (∃ rr ∈ allRRs entry.reply,
        (rr.ttl : Int) - (now - entry.putin) ≤ 0) := by
    rw [subTTL_snd]
    simp [subTTLrr_snd]
  rw [h1, if_congr h2 rfl rfl]

/-- C5, witness: a TTL-60 record read 65 seconds after insertion is
served clamped to 3, and the refresh of the same request and transport
is spawned. -/
theorem lookupCache_hit_spec_witness :
    lookupCache cC5 reqC5 "udp" 65 =
      some { reply := { entC5.reply with
               answer := entC5.reply.answer.map (servedRR (65 - entC5.putin)),
               ns := entC5.reply.ns.map (servedRR (65 - entC5.putin)),
               extra := entC5.reply.extra.map (servedRR (65 - entC5.putin)) },
             refresh := if ∃ rr ∈ allRRs entC5.reply,
                          (rr.ttl : Int) - (65 - entC5.putin) ≤ 0
                        then some (reqC5, "udp") else none } :=
  lookupCache_hit_spec cC5 reqC5 "udp" 65 entC5 (by decide)

/-- C7: for elapsed times `0 ≤ d₁ ≤ d₂` since insertion, every record's
TTL as served at `d₂` is ≤ the TTL served at `d₁` or equals the clamp
value 3, across all three sections. -/
theorem subTTL_monotone (m : Msg) (d₁ d₂ : Int)
    (hwf : Msg.wfTTL m) (h0 : 0 ≤ d₁) (h12 : d₁ ≤ d₂) :
    List.Forall₂ ttlMono (subTTL m d₁).1.answer (subTTL m d₂).1.answer ∧
    List.Forall₂ ttlMono (subTTL m d₁).1.ns (subTTL m d₂).1.ns ∧
    List.Forall₂ ttlMono (subTTL m d₁).1.extra (subTTL m d₂).1.extra := by
  refine ⟨?_, ?_, ?_⟩
  · rw [subTTL_answer, subTTL_answer]
    exact forall2_map_map _ _ _ _ fun rr hrr =>
      subTTLrr_mono rr d₁ d₂ (hwf rr (by simp [allRRs, hrr])) h0 h12
  · rw [subTTL_ns, subTTL_ns]
    exact forall2_map_map _ _ _ _ fun rr hrr =>
      subTTLrr_mono rr d₁ d₂ (hwf rr (by simp [allRRs, hrr])) h0 h12
  · rw [subTTL_extra, subTTL_extra]
    exact forall2_map_map _ _ _ _ fun rr hrr =>
      subTTLrr_mono rr d₁ d₂ (hwf rr (by simp [allRRs, hrr])) h0 h12

/-- C7, witness: monotonicity on a concrete message at elapsed times 1
and 10. -/
theorem subTTL_monotone_witness :
    List.Forall₂ ttlMono (subTTL mW7 1).1.answer (subTTL mW7 10).1.answer ∧
    List.Forall₂ ttlMono (subTTL mW7 1).1.ns (subTTL mW7 10).1.ns ∧
    List.Forall₂ ttlMono (subTTL mW7 1).1.extra (subTTL mW7 10).1.extra :=
  subTTL_monotone mW7 1 10 (by unfold Msg.wfTTL; decide) (by decide)
    (by decide)

/-- C2: the fast-upstream reply is selected iff it arrived before the
2-second deadline, without transport error, with response code NOERROR
and classified trustworthy; whenever it is selected, `lookupNet` caches
it and returns it labelled with the fast upstream's address, whatever the
clean channel holds. -/
theorem lookupNet_fast_selection (oracle : String → Bool) (cfg : Config)
    (st : HintStore) (req : Msg) (env : NetEnv) (net : String) (r : Msg) :
    (fastChanValue oracle st env = some r ↔
      env.fastInTime = true ∧ env.fastRes = some r ∧ env.fastErr = false ∧
        r.rcode = rcodeSuccess ∧ (maybePolluted oracle st r).1 = false) ∧
    (fastChanValue oracle st env = some r →
      lookupNet oracle cfg st req env net =
        { reply := r, upstream := cfg.fastDNS,
          cached := some (genCacheKey r net, r),
          hints := (fastQ oracle st env.fastRes env.fastErr).2 }) := by
  refine ⟨fastChanValue_some_iff oracle st env r, fun h => ?_⟩
  simp [lookupNet, h]

/-- C2, witness: a concrete fast NOERROR reply carrying a China A record
is selected, cached and labelled with the fast address even though the
clean channel holds the sentinel. -/
theorem lookupNet_fast_selection_witness :
    lookupNet oracleW cfgW [] reqW envW "udp" =
      { reply := fastMsgW, upstream := cfgW.fastDNS,
        cached := some (genCacheKey fastMsgW "udp", fastMsgW),
        hints := (fastQ oracleW [] envW.fastRes envW.fastErr).2 } :=
  (lookupNet_fast_selection oracleW cfgW [] reqW envW "udp" fastMsgW).2
    ((lookupNet_fast_selection oracleW cfgW [] reqW envW "udp" fastMsgW).1.mpr
      (by decide))

/-- C6: when both channels yield the sentinel — both upstreams failed or
hit the 2-second deadline — `lookupNet` returns the synthesized SERVFAIL
reply built from the request, and inserts nothing into the cache. -/
theorem lookupNet_total_failure (oracle : String → Bool) (cfg : Config)
    (st : HintStore) (req : Msg) (env : NetEnv) (net : String)
    (hf : fastChanValue oracle st env = none)
    (hc : cleanChanValue env = none) :
    (lookupNet oracle cfg st req env net).reply =
      setRcode emptyMsg req rcodeServerFailure ∧
    (lookupNet oracle cfg st req env net).reply.rcode = rcodeServerFailure ∧
    (lookupNet oracle cfg st req env net).cached = none := by
  simp [lookupNet, hf, hc, setRcode, rcodeServerFailure, emptyMsg]

/-- C6, witness: concrete total failure — fast transport error, clean
past the deadline — yields the SERVFAIL reply and no cache insertion. -/
theorem lookupNet_total_failure_witness :
    (lookupNet oracleF cfgW [] reqW envN "udp").reply =
      setRcode emptyMsg reqW rcodeServerFailure ∧
    (lookupNet oracleF cfgW [] reqW envN "udp").reply.rcode =
      rcodeServerFailure ∧
    (lookupNet oracleF cfgW [] reqW envN "udp").cached = none :=
  lookupNet_total_failure oracleF cfgW [] reqW envN "udp" (by decide)
    (by decide)

/-- C8: every reply `lookupNet` inserts into the answer cache — the only
insertion site, used directly and by the cache path's background refresh
— has response code NOERROR: the fast path is gated by the
NOERROR-and-trustworthy filter, the clean path by an explicit NOERROR
test, and the SERVFAIL branch inserts nothing. -/
theorem lookupNet_cached_noerror (oracle : String → Bool) (cfg : Config)
    (st : HintStore) (req : Msg) (env : NetEnv) (net : String)
    (k : String) (r : Msg)
    (h : (lookupNet oracle cfg st req env net).cached = some (k, r)) :
    r.rcode = rcodeSuccess := by
  cases hf : fastChanValue oracle st env with
  | some m =>
    simp [lookupNet, hf] at h
    rcases h with ⟨-, h2⟩
    subst h2
    exact ((fastChanValue_some_iff oracle st env m).1 hf).2.2.2.1
  | none =>
    cases hc : cleanChanValue env with
    | some m =>
      simp [lookupNet, hf, hc] at h
      obtain ⟨hrc, -, h2⟩ := h
      subst h2
      exact hrc
    | none => simp [lookupNet, hf, hc] at h

/-- C8, witness: the concrete fast-path insertion carries NOERROR. -/
theorem lookupNet_cached_noerror_witness :
    fastMsgW.rcode = rcodeSuccess :=
  lookupNet_cached_noerror oracleW cfgW [] reqW envW "udp"
    (genCacheKey fastMsgW "udp") fastMsgW (by decide)

/-- C9: an incoming message with an empty question section is answered
with exactly one written reply carrying the BADNAME response code, and
neither the hosts stub, the cache, nor the network upstreams are
probed. -/
theorem handle_empty_question (oracle : String → Bool) (cfg : Config)
    (st : HintStore) (c : Cache) (req : Msg) (net : String) (now : Int)
    (env : NetEnv) (h : req.question = []) :
    handle oracle cfg st c req net now env =
      { written := [setRcode emptyMsg req rcodeBadName], upstream := "",
        probedHosts := false, probedCache := false, probedNet := false } ∧
    (setRcode emptyMsg req rcodeBadName).rcode = rcodeBadName := by
  exact ⟨by simp [handle, h], rfl⟩

/-- C9, witness: the dispatcher on a concrete zero-question message. -/
theorem handle_empty_question_witness :
    handle oracleF cfgW [] [] reqE "udp" 0 envW =
      { written := [setRcode emptyMsg reqE rcodeBadName], upstream := "",
        probedHosts := false, probedCache := false, probedNet := false } ∧
    (setRcode emptyMsg reqE rcodeBadName).rcode = rcodeBadName :=
  handle_empty_question oracleF cfgW [] [] reqE "udp" 0 envW rfl

/-- C10: starting from the empty hint store, every value ever stored in
it is a boolean — it is written only in the A-record branch of the
classifier with the result of `containChinaIP` — so the `china.(bool)`
type assertion never panics over any sequence of classifier calls. -/
theorem runClassifier_no_panic (oracle : String → Bool) (cap : Nat)
    (msgs : List Msg) :
    (runClassifier oracle cap msgs []).isSome = true := by
  have key : ∀ (l : List Msg) (st : DynStore), BoolStore st →
      (runClassifier oracle cap l st).isSome = true := by
    intro l
    induction l with
    | nil => intro st _; simp [runClassifier]
    | cons m ms ih =>
      intro st hst
      obtain ⟨b, st', hm, hst'⟩ := maybePollutedDyn_no_panic oracle cap st m hst
      simp only [runClassifier, hm]
      exact ih st' hst'
  exact key msgs [] (fun p hp => absurd hp (List.not_mem_nil p))

end FreeDNS
